import Mathlib

/-!
A shallow embedding of `awstats/urls.py` (the AWStats POS_SIDER ingestion
script) and proofs about it.

Modelling conventions:
* A file's content is a list of already-decoded text lines (`List String`);
  the byte offsets stored in the BEGIN_MAP index are modelled at line
  granularity, so `file.seek(off)` becomes `lines.drop off.toNat`.
* `datetime` values are natural numbers counting microseconds;
  `.replace(microsecond=0)` is truncation to whole seconds.
* The MySQL tables are lists of rows carried in an explicit `DBState`;
  each SQL statement of the script is translated to a pure function on
  that state.  Fallible Python code (uncaught `ValueError` from `int(...)`
  or from the website lookup) is modelled with `Except String`.
* Python's `int(str)` is modelled for decimal literals with an optional
  sign (underscore digit grouping is not modelled); `urllib.parse.unquote`
  is modelled at byte/char granularity, which agrees with CPython on
  ASCII percent-escapes.
-/

namespace AWStatsUrls

/-! ## Python string primitives, on `List Char` so everything reduces -/

/-- `str.strip()`: drop whitespace from both ends. -/
def pyStripChars (l : List Char) : List Char :=
  ((l.dropWhile Char.isWhitespace).reverse.dropWhile Char.isWhitespace).reverse

/-- `str.strip()` on `String`. -/
def pyStrip (s : String) : String :=
  ⟨pyStripChars s.data⟩

/-- Helper for `str.split()` with no separator: accumulate the current
token (reversed) while scanning. -/
def pySplitAux (cur : List Char) : List Char → List (List Char)
  | [] => if cur.isEmpty then [] else [cur.reverse]
  | c :: rest =>
    if c.isWhitespace then
      if cur.isEmpty then pySplitAux [] rest
      else cur.reverse :: pySplitAux [] rest
    else pySplitAux (c :: cur) rest

/-- `str.split()`: split on whitespace runs, discarding empty tokens. -/
def pySplit (s : String) : List String :=
  (pySplitAux [] s.data).map (fun l => ⟨l⟩)

/-- `str.startswith(p)`. -/
def pyStartswith (p s : String) : Bool :=
  p.data.isPrefixOf s.data

/-- Value of a hexadecimal digit, if any (for percent-decoding). -/
def hexVal (c : Char) : Option Nat :=
  if '0' ≤ c ∧ c ≤ '9' then some (c.toNat - '0'.toNat)
  else if 'a' ≤ c ∧ c ≤ 'f' then some (c.toNat - 'a'.toNat + 10)
  else if 'A' ≤ c ∧ c ≤ 'F' then some (c.toNat - 'A'.toNat + 10)
  else none

mutual

/-- `urllib.parse.unquote`, char-level: a `%` followed by two hex digits
decodes to that code point; an invalid escape keeps the `%` and rescans
from the following character. -/
def unquoteChars : List Char → List Char
  | [] => []
  | c :: rest => if c = '%' then unquoteAfterPct rest else c :: unquoteChars rest

/-- Continuation of `unquoteChars` right after a `%`: a valid two-hex-digit
escape decodes; otherwise the `%` stays literal and scanning resumes at
the very next character. -/
def unquoteAfterPct : List Char → List Char
  | [] => ['%']
  | [a] => if a = '%' then ['%', '%'] else ['%', a]
  | a :: b :: rest =>
    match hexVal a, hexVal b with
    | some x, some y => Char.ofNat (16 * x + y) :: unquoteChars rest
    | _, _ =>
      if a = '%' then '%' :: unquoteAfterPct (b :: rest)
      else '%' :: a ::
        (if b = '%' then unquoteAfterPct rest else b :: unquoteChars rest)

end

/-- `urllib.parse.unquote` on `String`. -/
def unquote (s : String) : String :=
  ⟨unquoteChars s.data⟩

/-- Digit-string evaluation: `some` of the decimal value iff every
character is an ASCII digit. -/
def digitsVal (acc : Nat) : List Char → Option Nat
  | [] => some acc
  | c :: rest =>
    if c.isDigit then digitsVal (acc * 10 + (c.toNat - '0'.toNat)) rest
    else none

/-- Python's `int(str)` on a whitespace-free token: optional sign followed
by a nonempty run of decimal digits; anything else raises (here: `none`). -/
def pyIntChars (l : List Char) : Option Int :=
  match l with
  | [] => none
  | '+' :: rest =>
    if rest.isEmpty then none else (digitsVal 0 rest).map Int.ofNat
  | '-' :: rest =>
    if rest.isEmpty then none else (digitsVal 0 rest).map (fun n => -(n : Int))
  | _ => (digitsVal 0 l).map Int.ofNat

/-- `int(str)` on `String`. -/
def pyInt (s : String) : Option Int :=
  pyIntChars s.data

/-- Python list slicing `l[a:b]` (for `filename[9:13]` etc.). -/
def pySliceL (l : List Char) (a b : Nat) : List Char :=
  (l.drop a).take (b - a)

/-- `str.split('.')` on `List Char`: split at every dot, keeping empty
components (Python semantics for an explicit separator). -/
def splitDots : List Char → List (List Char)
  | [] => [[]]
  | c :: rest =>
    if c = '.' then [] :: splitDots rest
    else
      match splitDots rest with
      | h :: t => (c :: h) :: t
      | [] => [[c]]

/-- `'.'.join(parts)` on `List Char` components. -/
def joinDots : List (List Char) → List Char
  | [] => []
  | [x] => x
  | x :: rest => x ++ '.' :: joinDots rest

/-! ## The script's parsing functions -/

/-- `should_ignore_url(url)` from `urls.py`, with the module-global
`ignore_patterns` made an explicit argument: ignore the empty URL, the
bare slash, and any URL starting with a configured pattern. -/
def should_ignore_url (ignore_patterns : List String) (url : String) : Bool :=
  url == "" || url == "/" || ignore_patterns.any (fun p => pyStartswith p url)

/-- Overwrite-or-append assignment `positions[key] = value` on an
association list (Python dict with insertion order). -/
def dictInsert (ps : List (String × Int)) (key : String) (v : Int) :
    List (String × Int) :=
  if ps.any (fun kv => kv.1 == key) then
    ps.map (fun kv => if kv.1 == key then (kv.1, v) else kv)
  else ps ++ [(key, v)]

/-- `parse_begin_map(file)`: scan lines, skipping `BEGIN_MAP`, stopping at
`END_MAP`; record every two-token line whose first token starts with
`POS_`, converting the second token with `int` — an unparsable second
token raises (here: `.error`). -/
def parse_begin_map_aux (acc : List (String × Int)) :
    List String → Except String (List (String × Int))
  | [] => .ok acc
  | l :: rest =>
    let line := pyStrip l
    if pyStartswith "BEGIN_MAP" line then parse_begin_map_aux acc rest
    else if pyStartswith "END_MAP" line then .ok acc
    else
      match pySplit line with
      | [k, v] =>
        if pyStartswith "POS_" k then
          match pyInt v with
          | some n => parse_begin_map_aux (dictInsert acc k n) rest
          | none => .error "invalid literal for int"
        else parse_begin_map_aux acc rest
      | _ => parse_begin_map_aux acc rest

/-- `parse_begin_map` entry point (file read from its start). -/
def parse_begin_map (lines : List String) :
    Except String (List (String × Int)) :=
  parse_begin_map_aux [] lines

/-- URL normalization inside `parse_pos_sider`: strip one leading `/`,
strip one `wiki/` prefix, then percent-decode. -/
def normalizeUrl (raw : String) : String :=
  let u := raw.data
  let u := if "/".data.isPrefixOf u then u.drop 1 else u
  let u := if "wiki/".data.isPrefixOf u then u.drop 5 else u
  ⟨unquoteChars u⟩

/-- One decoded record of the POS_SIDER section
(`{'url': ..., 'pages': ..., 'bandwidth': ..., 'entry': ..., 'exit': ...}`). -/
structure UrlData where
  url : String
  pages : Int
  bandwidth : Int
  entry : Int
  exit_ : Int
deriving DecidableEq, Repr

/-- Body of the `parse_pos_sider` loop: stop at `END_SIDER`; skip comments
and `BEGIN_SIDER`; accept only five-token lines whose normalized URL is
not ignored; convert the four counters with `int`, raising (`.error`) on
failure. -/
def parseSiderLines (ignore_patterns : List String) :
    List String → Except String (List UrlData)
  | [] => .ok []
  | l :: rest =>
    let line := pyStrip l
    if pyStartswith "END_SIDER" line then .ok []
    else if !pyStartswith "#" line && !pyStartswith "BEGIN_SIDER" line then
      match pySplit line with
      | [u, p, b, en, ex] =>
        let url := normalizeUrl u
        if should_ignore_url ignore_patterns url then
          parseSiderLines ignore_patterns rest
        else
          match pyInt p, pyInt b, pyInt en, pyInt ex with
          | some pv, some bv, some env_, some exv =>
            match parseSiderLines ignore_patterns rest with
            | .ok tail => .ok (⟨url, pv, bv, env_, exv⟩ :: tail)
            | .error e => .error e
          | _, _, _, _ => .error "invalid literal for int"
      | _ => parseSiderLines ignore_patterns rest
    else parseSiderLines ignore_patterns rest

/-- `parse_pos_sider(file, pos_sider_offset)`: seek to the offset
(line-granular in this model) and run the section loop. -/
def parse_pos_sider (ignore_patterns : List String) (file : List String)
    (pos_sider_offset : Int) : Except String (List UrlData) :=
  parseSiderLines ignore_patterns (file.drop pos_sider_offset.toNat)

/-! ## The relational store -/

/-- A row of the pre-populated `websites` table. -/
structure WebsiteRow where
  id : Nat
  name : String
deriving DecidableEq, Repr

/-- A row of `website_url`. -/
structure WebsiteUrlRow where
  id : Nat
  website_id : Nat
  url : String
deriving DecidableEq, Repr

/-- A row of `website_url_stats`; the key is
`(website_url_id, server_id, year, month)`. -/
structure StatsRow where
  website_url_id : Nat
  server_id : Nat
  year : Int
  month : Int
  hits : Int
  entry_count : Int
  exit_count : Int
deriving DecidableEq, Repr

/-- A row of `file_tracking`; the key is `(filename, server_id)`. -/
structure FileTrackingRow where
  filename : String
  server_id : Nat
  last_modified : Nat
  processed_date : Nat
deriving DecidableEq, Repr

/-- The whole database, plus the auto-increment counter backing
`cursor.lastrowid` for `website_url` inserts. -/
structure DBState where
  websites : List WebsiteRow
  website_url : List WebsiteUrlRow
  website_url_stats : List StatsRow
  file_tracking : List FileTrackingRow
  next_url_id : Nat
deriving DecidableEq, Repr

/-- `get_website_id(cursor, website_name)`: point lookup; an unknown name
raises `ValueError` (here: `.error`). -/
def get_website_id (st : DBState) (website_name : String) :
    Except String Nat :=
  match st.websites.find? (fun w => w.name == website_name) with
  | some w => .ok w.id
  | none => .error "Website not found in the database."

/-- Key predicate of the `file_tracking` lookup. -/
def trackKey (filename : String) (server_id : Nat) (r : FileTrackingRow) :
    Bool :=
  r.filename == filename && r.server_id == server_id

/-- `has_file_been_processed(cursor, filename, server_id, last_modified,
force)`: `force` short-circuits to false; otherwise truthy iff a stored
fingerprint for the key has exactly this `last_modified`. -/
def has_file_been_processed (tracking : List FileTrackingRow)
    (filename : String) (server_id : Nat) (last_modified : Nat)
    (force : Bool) : Bool :=
  if force then false
  else
    match tracking.find? (trackKey filename server_id) with
    | some r => r.last_modified == last_modified
    | none => false

/-- `update_file_tracking(cursor, filename, server_id, last_modified)`:
`INSERT ... ON DUPLICATE KEY UPDATE` on the `(filename, server_id)` key;
`now` stands for `datetime.now().replace(microsecond=0)`. -/
def update_file_tracking (tracking : List FileTrackingRow)
    (filename : String) (server_id : Nat) (last_modified : Nat)
    (now : Nat) : List FileTrackingRow :=
  if tracking.any (trackKey filename server_id) then
    tracking.map (fun r =>
      if trackKey filename server_id r then
        { r with last_modified := last_modified, processed_date := now }
      else r)
  else tracking ++ [⟨filename, server_id, last_modified, now⟩]

/-- `get_or_create_website_url_id(cursor, website_id, url)`: lookup by
`(website_id, url)`, inserting a fresh row (with `cursor.lastrowid`) when
absent. -/
def get_or_create_website_url_id (st : DBState) (website_id : Nat)
    (url : String) : Nat × DBState :=
  match st.website_url.find?
      (fun w => w.website_id == website_id && w.url == url) with
  | some w => (w.id, st)
  | none =>
    (st.next_url_id,
     { st with
        website_url := st.website_url ++ [⟨st.next_url_id, website_id, url⟩],
        next_url_id := st.next_url_id + 1 })

/-- Key predicate of the `website_url_stats` upsert. -/
def statsKey (website_url_id server_id : Nat) (year month : Int)
    (r : StatsRow) : Bool :=
  r.website_url_id == website_url_id && r.server_id == server_id &&
    r.year == year && r.month == month

/-- `update_server_stats(cursor, website_url_id, server_id, year, month,
data)`: additive `INSERT ... ON DUPLICATE KEY UPDATE` of
`(pages, entry, exit)` into `(hits, entry_count, exit_count)`; `bandwidth`
is not part of the statement. -/
def update_server_stats (stats : List StatsRow)
    (website_url_id server_id : Nat) (year month : Int) (data : UrlData) :
    List StatsRow :=
  if stats.any (statsKey website_url_id server_id year month) then
    stats.map (fun r =>
      if statsKey website_url_id server_id year month r then
        { r with
            hits := r.hits + data.pages,
            entry_count := r.entry_count + data.entry,
            exit_count := r.exit_count + data.exit_ }
      else r)
  else
    stats ++ [⟨website_url_id, server_id, year, month,
              data.pages, data.entry, data.exit_⟩]

/-- The per-record loop of `process_file`: resolve-or-create the URL id,
then merge the record's counters. -/
def merge_sider_data (st : DBState) (website_id server_id : Nat)
    (year month : Int) : List UrlData → DBState
  | [] => st
  | d :: rest =>
    let pair := get_or_create_website_url_id st website_id d.url
    let st' := pair.2
    let st'' :=
      { st' with
          website_url_stats :=
            update_server_stats st'.website_url_stats pair.1 server_id
              year month d }
    merge_sider_data st'' website_id server_id year month rest

/-- `.replace(microsecond=0)` on a microsecond count: truncate to whole
seconds. -/
def truncMicros (t : Nat) : Nat :=
  t / 1000000 * 1000000

/-- One on-disk report file: `os.path.basename` of its path, its raw
modification time in microseconds, and its text lines. -/
structure AwFile where
  name : String
  mtimeMicros : Nat
  lines : List String
deriving DecidableEq, Repr

/-- `'.'.join(filename.split('.')[1:-1])`. -/
def websiteFromFilename (filename : List Char) : List Char :=
  joinDots (((splitDots filename).drop 1).dropLast)

/-- `process_file(cursor, file_path, server_id, force)` with the
ambient database, ignore patterns and clock made explicit.  Uncaught
Python exceptions (`int` failures, unknown website) are `.error`s. -/
def process_file (st : DBState) (ignore_patterns : List String)
    (f : AwFile) (server_id : Nat) (force : Bool) (now : Nat) :
    Except String DBState :=
  if has_file_been_processed st.file_tracking f.name server_id
      (truncMicros f.mtimeMicros) force then
    .ok st
  else
    match parse_begin_map f.lines with
    | .error e => .error e
    | .ok positions =>
      match positions.lookup "POS_SIDER" with
      | none => .ok st
      | some off =>
        match parse_pos_sider ignore_patterns f.lines off with
        | .error e => .error e
        | .ok sider_data =>
          match get_website_id st ⟨websiteFromFilename f.name.data⟩ with
          | .error e => .error e
          | .ok website_id =>
            match pyIntChars (pySliceL f.name.data 9 13),
                pyIntChars (pySliceL f.name.data 7 9) with
            | some year, some month =>
              .ok { merge_sider_data st website_id server_id year month
                      sider_data with
                    file_tracking :=
                      update_file_tracking
                        (merge_sider_data st website_id server_id year
                          month sider_data).file_tracking
                        f.name server_id (truncMicros f.mtimeMicros) now }
            | _, _ => .error "invalid literal for int"

/-- The per-directory file loop in `main`: files are processed in order;
an uncaught exception from one file aborts the whole run (there is no
try/except around `process_file`). -/
def process_files (st : DBState) (ignore_patterns : List String)
    (files : List (AwFile × Nat)) (force : Bool) (now : Nat) :
    Except String DBState :=
  match files with
  | [] => .ok st
  | (f, sid) :: rest =>
    match process_file st ignore_patterns f sid force now with
    | .error e => .error e
    | .ok st' => process_files st' ignore_patterns rest force now

/-! ## Forced-reset scopes (`main`, `if args.force:`) -/

/-- The stats deletion of `--force --website`:
`DELETE ws ... INNER JOIN website_url wu ... WHERE wu.website_id = %s`. -/
def statsAfterWebsiteDelete (st : DBState) (website_id : Nat) :
    List StatsRow :=
  st.website_url_stats.filter (fun s =>
    !(st.website_url.any (fun w =>
      w.id == s.website_url_id && w.website_id == website_id)))

/-- `--force --website`: delete the website's stats, then sweep its URLs
with no remaining stats (`DELETE wu ... LEFT JOIN ... WHERE
wu.website_id = %s AND ws.website_url_id IS NULL`). -/
def force_reset_website (st : DBState) (website_id : Nat) : DBState :=
  { st with
      website_url_stats := statsAfterWebsiteDelete st website_id,
      website_url := st.website_url.filter (fun w =>
        !(w.website_id == website_id &&
          !((statsAfterWebsiteDelete st website_id).any (fun s =>
            s.website_url_id == w.id)))) }

/-- `--force --server` (`main`, lines 247–263): the branch first runs
`server_id = get_server_id_from_name(args.server)`, but no function of
that name is defined anywhere in the module (the existing helper is
`get_server_id`, keyed by directory path) and no import supplies it, so
Python raises `NameError` here — before the `server_id is None` guard and
before the server-scope `DELETE FROM website_url_stats` and the URL sweep
at lines 254–263.  Those deletions are unreachable dead code, so the
faithful model of this scope is the uncaught error, independent of the
database state and the server name. -/
def force_reset_server (_st : DBState) (_server_name : String) :
    Except String DBState :=
  .error "name get_server_id_from_name is not defined"

/-- The stats deletion of `--force --file`: the inner-join delete
restricted to the file's website, year and month. -/
def statsAfterFileDelete (st : DBState) (website_id : Nat)
    (year month : Int) : List StatsRow :=
  st.website_url_stats.filter (fun s =>
    !(st.website_url.any (fun w =>
        w.id == s.website_url_id && w.website_id == website_id) &&
      s.year == year && s.month == month))

/-- `--force --file`: delete the stats of the file's website restricted to
its year and month, then sweep that website's URLs with no remaining
stats. -/
def force_reset_file (st : DBState) (website_id : Nat) (year month : Int) :
    DBState :=
  { st with
      website_url_stats := statsAfterFileDelete st website_id year month,
      website_url := st.website_url.filter (fun w =>
        !(w.website_id == website_id &&
          !((statsAfterFileDelete st website_id year month).any (fun s =>
            s.website_url_id == w.id)))) }

/-- `--force` with no scope argument: delete all stats and all URLs. -/
def force_reset_all (st : DBState) : DBState :=
  { st with website_url_stats := [], website_url := [] }

/-! ## Filename parsing, the two divergent paths -/

/-- The normal-ingestion filename derivation (`process_file`, lines
171–177): website by dot-split slicing, year and month by fixed character
offsets. -/
def fileTripleNormal (filename : List Char) :
    Option (List Char × Int × Int) :=
  match pyIntChars (pySliceL filename 9 13),
      pyIntChars (pySliceL filename 7 9) with
  | some year, some month =>
    some (websiteFromFilename filename, year, month)
  | _, _ => none

/-- The anchored regex `awstats(\d{2})(\d{4})` of the forced single-file
path: fixed-width groups, so the match is positional. -/
def regexAwstats (s : List Char) : Option (List Char × List Char) :=
  match s with
  | 'a' :: 'w' :: 's' :: 't' :: 'a' :: 't' :: 's' ::
      m1 :: m2 :: y1 :: y2 :: y3 :: y4 :: _ =>
    if m1.isDigit && m2.isDigit && y1.isDigit && y2.isDigit &&
        y3.isDigit && y4.isDigit then
      some ([m1, m2], [y1, y2, y3, y4])
    else none
  | _ => none

/-- A filename of the conforming shape `awstats` + 2-digit month + 4-digit
year + `.` + website name + `.txt`, as a character list. -/
def conformingName (m1 m2 y1 y2 y3 y4 : Char) (w : List Char) :
    List Char :=
  'a' :: 'w' :: 's' :: 't' :: 'a' :: 't' :: 's' :: m1 :: m2 ::
    y1 :: y2 :: y3 :: y4 :: '.' :: (w ++ '.' :: 't' :: 'x' :: 't' :: [])

/-- The forced single-file deletion derivation (`main`, lines 264–283):
strip the four-character extension, dot-split for the website, regex for
month and year; either format check failing returns without deleting. -/
def fileTripleForced (filename : List Char) :
    Option (List Char × Int × Int) :=
  let fwe := filename.take (filename.length - 4)
  let parts := splitDots fwe
  if parts.length < 2 then none
  else
    match regexAwstats fwe with
    | some (mStr, yStr) =>
      match pyIntChars yStr, pyIntChars mStr with
      | some year, some month => some (joinDots (parts.drop 1), year, month)
      | _, _ => none
    | none => none

/-! ## Derived per-line and per-state views used in the statements -/

/-- A line terminating the POS_SIDER section. -/
def isEndSider (l : String) : Bool :=
  pyStartswith "END_SIDER" (pyStrip l)

/-- Per-line view of the POS_SIDER loop body: the record a single line
contributes, if any (comments, section markers, non-five-field lines and
ignored URLs contribute nothing; so do unparsable counters). -/
def decodeRecord (ignore_patterns : List String) (l : String) :
    Option UrlData :=
  let line := pyStrip l
  if pyStartswith "#" line || pyStartswith "BEGIN_SIDER" line then none
  else
    match pySplit line with
    | [u, p, b, en, ex] =>
      let url := normalizeUrl u
      if should_ignore_url ignore_patterns url then none
      else
        match pyInt p, pyInt b, pyInt en, pyInt ex with
        | some pv, some bv, some env_, some exv =>
          some ⟨url, pv, bv, env_, exv⟩
        | _, _, _, _ => none
    | _ => none

/-- A line that reaches the counter conversion of the POS_SIDER loop but
whose counters do not all parse as integers (the `ValueError` trigger). -/
def badCounterLine (ignore_patterns : List String) (l : String) : Bool :=
  let line := pyStrip l
  if pyStartswith "#" line || pyStartswith "BEGIN_SIDER" line then false
  else
    match pySplit line with
    | [u, p, b, en, ex] =>
      if should_ignore_url ignore_patterns (normalizeUrl u) then false
      else
        !((pyInt p).isSome && (pyInt b).isSome && (pyInt en).isSome &&
          (pyInt ex).isSome)
    | _ => false

/-- Whether some `website_url` row inside the given scope has no
referencing `website_url_stats` row. -/
def orphanInScope (st : DBState) (inScope : WebsiteUrlRow → Bool) : Bool :=
  st.website_url.any (fun w =>
    inScope w &&
      !(st.website_url_stats.any (fun s => s.website_url_id == w.id)))

/-! ## Concrete fixtures for the closed witness statements -/

/-- A pre-populated database holding the one website the demo file
reports on. -/
def demoState : DBState :=
  { websites := [⟨1, "example.com"⟩]
    website_url := []
    website_url_stats := []
    file_tracking := []
    next_url_id := 1 }

/-- A well-formed AWStats report file. -/
def demoFile : AwFile :=
  { name := "awstats032024.example.com.txt"
    mtimeMicros := 1700000000123456
    lines := ["BEGIN_MAP", "POS_SIDER 3", "END_MAP",
              "BEGIN_SIDER",
              "/wiki/Some%20Page 5 100 2 3",
              "/Other 7 50 1 0",
              "END_SIDER"] }

/-- `demoState` after a successful ingestion of `demoFile` on server 1 at
time 42. -/
def demoProcessed : DBState :=
  { websites := [⟨1, "example.com"⟩]
    website_url := [⟨1, 1, "Some Page"⟩, ⟨2, 1, "Other"⟩]
    website_url_stats :=
      [⟨1, 1, 2024, 3, 5, 2, 3⟩, ⟨2, 1, 2024, 3, 7, 1, 0⟩]
    file_tracking := [⟨"awstats032024.example.com.txt", 1, 1700000000000000, 42⟩]
    next_url_id := 3 }

/-- A report whose offset index lacks the POS_SIDER section. -/
def noSiderFile : AwFile :=
  { name := "awstats032024.example.com.txt"
    mtimeMicros := 1700000000123456
    lines := ["BEGIN_MAP", "POS_GENERAL 7", "END_MAP"] }

/-- A report with a five-field record line whose second counter is not an
integer. -/
def badCounterFile : AwFile :=
  { name := "awstats032024.example.com.txt"
    mtimeMicros := 1700000000123456
    lines := ["BEGIN_MAP", "POS_SIDER 3", "END_MAP",
              "BEGIN_SIDER",
              "/Page 1 x 2 3",
              "END_SIDER"] }

/-! ## Helper lemmas -/

lemma find?_map_ite {α : Type} (p : α → Bool) (f : α → α) (l : List α)
    (hf : ∀ a, p a = true → p (f a) = true) :
    (l.map (fun a => if p a then f a else a)).find? p =
      (l.find? p).map f := by
  induction l with
  | nil => rfl
  | cons a l ih =>
    by_cases h : p a = true
    · simp only [List.map_cons, if_pos h]
      rw [List.find?_cons_of_pos _ (hf a h), List.find?_cons_of_pos _ h]
      rfl
    · simp only [List.map_cons, if_neg h]
      rw [List.find?_cons_of_neg _ h, List.find?_cons_of_neg _ h]
      exact ih

lemma find?_append_of_none {α : Type} (p : α → Bool) (l₁ l₂ : List α)
    (h : l₁.find? p = none) : (l₁ ++ l₂).find? p = l₂.find? p := by
  induction l₁ with
  | nil => rfl
  | cons a l ih =>
    rw [List.find?_cons] at h
    rcases hp : p a with _ | _
    · rw [hp] at h
      rw [List.cons_append, List.find?_cons_of_neg _ (by simp [hp])]
      exact ih h
    · rw [hp] at h; exact absurd h (by simp)

lemma trackKey_fields {fn : String} {sid : Nat} {r : FileTrackingRow}
    (h : trackKey fn sid r = true) : r.filename = fn ∧ r.server_id = sid := by
  simp only [trackKey, Bool.and_eq_true, beq_iff_eq] at h
  exact h

lemma find?_update_file_tracking (T : List FileTrackingRow) (fn : String)
    (sid lm now : Nat) :
    (update_file_tracking T fn sid lm now).find? (trackKey fn sid) =
      some ⟨fn, sid, lm, now⟩ := by
  unfold update_file_tracking
  by_cases h : T.any (trackKey fn sid) = true
  · rw [if_pos h]
    rw [find?_map_ite (trackKey fn sid)
      (fun r => { r with last_modified := lm, processed_date := now }) T
      (fun a ha => ha)]
    rcases hfind : T.find? (trackKey fn sid) with _ | r
    · rw [List.find?_eq_none] at hfind
      obtain ⟨a, ha, hpa⟩ := List.any_eq_true.mp h
      exact absurd hpa (hfind a ha)
    · obtain ⟨h1, h2⟩ := trackKey_fields (List.find?_some hfind)
      simp only [Option.map_some']
      cases r
      simp_all
  · rw [if_neg h]
    have hnone : T.find? (trackKey fn sid) = none := by
      rw [List.find?_eq_none]
      intro a ha hpa
      exact h (List.any_eq_true.mpr ⟨a, ha, hpa⟩)
    rw [find?_append_of_none _ _ _ hnone,
      List.find?_cons_of_pos _ (by simp [trackKey])]

lemma has_file_been_processed_update (T : List FileTrackingRow)
    (fn : String) (sid lm now : Nat) :
    has_file_been_processed (update_file_tracking T fn sid lm now) fn sid
      lm false = true := by
  simp [has_file_been_processed, find?_update_file_tracking]

lemma statsKey_fields {wuid sid : Nat} {y m : Int} {r : StatsRow}
    (h : statsKey wuid sid y m r = true) :
    r.website_url_id = wuid ∧ r.server_id = sid ∧ r.year = y ∧
      r.month = m := by
  simp only [statsKey, Bool.and_eq_true, beq_iff_eq] at h
  exact ⟨h.1.1.1, h.1.1.2, h.1.2, h.2⟩

lemma get_or_create_file_tracking (st : DBState) (wid : Nat)
    (url : String) :
    (get_or_create_website_url_id st wid url).2.file_tracking =
      st.file_tracking := by
  cases hfind : st.website_url.find?
      (fun w => w.website_id == wid && w.url == url) with
  | none => simp [get_or_create_website_url_id, hfind]
  | some w => simp [get_or_create_website_url_id, hfind]

lemma merge_sider_data_file_tracking (ds : List UrlData) :
    ∀ (st : DBState) (wid sid : Nat) (y m : Int),
      (merge_sider_data st wid sid y m ds).file_tracking =
        st.file_tracking := by
  induction ds with
  | nil => intro st wid sid y m; rfl
  | cons d rest ih =>
    intro st wid sid y m
    rw [merge_sider_data, ih]
    exact get_or_create_file_tracking st wid d.url

lemma merge_sider_data_urls (ds : List UrlData) :
    ∀ (st : DBState) (wid sid : Nat) (y m : Int)
      (w : WebsiteUrlRow),
      w ∈ (merge_sider_data st wid sid y m ds).website_url →
      w ∈ st.website_url ∨ ∃ d ∈ ds, w.url = d.url := by
  induction ds with
  | nil => intro st wid sid y m w hw; exact Or.inl hw
  | cons d rest ih =>
    intro st wid sid y m w hw
    rw [merge_sider_data] at hw
    rcases ih _ wid sid y m w hw with hmem | ⟨d', hd', hurl⟩
    · cases hfind : st.website_url.find?
          (fun x => x.website_id == wid && x.url == d.url) with
      | some x =>
        rw [get_or_create_website_url_id] at hmem
        rw [hfind] at hmem
        exact Or.inl hmem
      | none =>
        rw [get_or_create_website_url_id] at hmem
        rw [hfind] at hmem
        rcases List.mem_append.mp hmem with hmem' | hnew
        · exact Or.inl hmem'
        · refine Or.inr ⟨d, List.mem_cons_self d rest, ?_⟩
          rw [List.mem_singleton.mp hnew]
    · exact Or.inr ⟨d', List.mem_cons_of_mem d hd', hurl⟩

lemma parseSiderLines_ok_not_ignored (ips : List String) :
    ∀ (ls : List String) (out : List UrlData),
      parseSiderLines ips ls = .ok out →
      ∀ d ∈ out, should_ignore_url ips d.url = false := by
  intro ls
  induction ls with
  | nil =>
    intro out h d hd
    simp only [parseSiderLines] at h
    cases h
    simp at hd
  | cons l rest ih =>
    intro out h d hd
    simp only [parseSiderLines] at h
    split at h
    · cases h; simp at hd
    · split at h
      · split at h
        · split at h
          · exact ih _ h d hd
          · rename_i hig
            split at h
            · split at h
              · rename_i heq
                cases h
                rcases List.mem_cons.mp hd with rfl | hd'
                · exact Bool.not_eq_true _ ▸ (Bool.eq_false_iff.mpr hig)
                · exact ih _ heq d hd'
              · cases h
            · cases h
        · exact ih _ h d hd
      · exact ih _ h d hd

lemma splitDots_ne_nil (l : List Char) : splitDots l ≠ [] := by
  induction l with
  | nil => simp [splitDots]
  | cons c rest ih =>
    rw [splitDots]
    by_cases hc : c = '.'
    · simp [hc]
    · rw [if_neg hc]
      rcases h : splitDots rest with _ | ⟨x, xs⟩
      · exact absurd h ih
      · simp

lemma splitDots_append_dot (xs ys : List Char) :
    splitDots (xs ++ '.' :: ys) = splitDots xs ++ splitDots ys := by
  induction xs with
  | nil => simp [splitDots]
  | cons c rest ih =>
    by_cases hc : c = '.'
    · subst hc
      rw [List.cons_append, splitDots, if_pos rfl, ih, splitDots,
        if_pos rfl]
      rfl
    · rw [List.cons_append, splitDots, if_neg hc, ih, splitDots, if_neg hc]
      rcases h : splitDots rest with _ | ⟨x, xs'⟩
      · exact absurd h (splitDots_ne_nil rest)
      · simp [h]

lemma splitDots_noDot (xs : List Char) (h : ∀ c ∈ xs, c ≠ '.') :
    splitDots xs = [xs] := by
  induction xs with
  | nil => rfl
  | cons c rest ih =>
    rw [splitDots, if_neg (h c (List.mem_cons_self _ _)),
      ih (fun x hx => h x (List.mem_cons_of_mem _ hx))]

lemma joinDots_splitDots (xs : List Char) :
    joinDots (splitDots xs) = xs := by
  induction xs with
  | nil => rfl
  | cons c rest ih =>
    by_cases hc : c = '.'
    · subst hc
      rw [splitDots, if_pos rfl]
      rcases h : splitDots rest with _ | ⟨x, xs'⟩
      · exact absurd h (splitDots_ne_nil rest)
      · rw [h] at ih
        simp only [joinDots, List.nil_append]
        rw [ih]
    · rw [splitDots, if_neg hc]
      rcases h : splitDots rest with _ | ⟨x, xs'⟩
      · exact absurd h (splitDots_ne_nil rest)
      · rw [h] at ih
        rcases xs' with _ | ⟨y, ys⟩
        · simp only [joinDots] at ih ⊢
          rw [ih]
        · simp only [joinDots, List.cons_append] at ih ⊢
          rw [ih]

lemma digit_ne_dot (c : Char) (h : c.isDigit = true) : c ≠ '.' := by
  intro e
  subst e
  exact absurd h (by decide)

lemma digitsVal_isSome (l : List Char) (h : ∀ c ∈ l, c.isDigit = true) :
    ∀ acc, (digitsVal acc l).isSome = true := by
  induction l with
  | nil => intro acc; rfl
  | cons c rest ih =>
    intro acc
    rw [digitsVal, if_pos (h c (List.mem_cons_self _ _))]
    exact ih (fun x hx => h x (List.mem_cons_of_mem _ hx)) _

lemma pyIntChars_digits_isSome (c : Char) (rest : List Char)
    (h : ∀ x ∈ c :: rest, x.isDigit = true) :
    (pyIntChars (c :: rest)).isSome = true := by
  have hc : c.isDigit = true := h c (List.mem_cons_self _ _)
  have hplus : c ≠ '+' := by
    intro e; subst e; exact absurd hc (by decide)
  have hminus : c ≠ '-' := by
    intro e; subst e; exact absurd hc (by decide)
  unfold pyIntChars
  split
  · rename_i heq
    simp at heq
  · rename_i r heq
    exact absurd (List.cons.injEq .. ▸ heq).1 hplus
  · rename_i r heq
    exact absurd (List.cons.injEq .. ▸ heq).1 hminus
  · rw [Option.isSome_map']
    exact digitsVal_isSome _ h 0

lemma parseSiderLines_eq_filterMap (ips : List String) :
    ∀ ls : List String,
      (∀ l ∈ ls.takeWhile (fun x => !isEndSider x),
        badCounterLine ips l = false) →
      parseSiderLines ips ls =
        .ok ((ls.takeWhile (fun x => !isEndSider x)).filterMap
          (decodeRecord ips)) := by
  intro ls
  induction ls with
  | nil => intro h; rfl
  | cons l rest ih =>
    intro h
    have hcondE : pyStartswith "END_SIDER" (pyStrip l) = isEndSider l := rfl
    by_cases hend : isEndSider l = true
    · have htw : (l :: rest).takeWhile (fun x => !isEndSider x) = [] := by
        simp [List.takeWhile_cons, hend]
      rw [htw]
      simp only [parseSiderLines]
      rw [hcondE, if_pos hend]
      rfl
    · have hend' : isEndSider l = false := Bool.eq_false_iff.mpr hend
      have htw : (l :: rest).takeWhile (fun x => !isEndSider x) =
          l :: rest.takeWhile (fun x => !isEndSider x) := by
        simp [List.takeWhile_cons, hend']
      rw [htw] at h ⊢
      have hbadl : badCounterLine ips l = false := h l (List.mem_cons_self _ _)
      have htail : ∀ x ∈ rest.takeWhile (fun x => !isEndSider x),
          badCounterLine ips x = false :=
        fun x hx => h x (List.mem_cons_of_mem _ hx)
      simp only [parseSiderLines]
      rw [hcondE, if_neg hend]
      by_cases hc : (!pyStartswith "#" (pyStrip l) &&
          !pyStartswith "BEGIN_SIDER" (pyStrip l)) = true
      · rw [if_pos hc]
        have hAB : (pyStartswith "#" (pyStrip l) ||
            pyStartswith "BEGIN_SIDER" (pyStrip l)) = false := by
          obtain ⟨h1, h2⟩ := (Bool.and_eq_true _ _) ▸ hc
          rw [Bool.not_eq_true'] at h1 h2
          rw [h1, h2]
          rfl
        rcases hsplit : pySplit (pyStrip l) with
          _ | ⟨u, _ | ⟨p, _ | ⟨b, _ | ⟨en, _ | ⟨ex, _ | ⟨x, xs⟩⟩⟩⟩⟩⟩
        · simp only [hsplit]
          have hdec : decodeRecord ips l = none := by
            simp [decodeRecord, hAB, hsplit]
          rw [List.filterMap_cons, hdec]
          exact ih htail
        · simp only [hsplit]
          have hdec : decodeRecord ips l = none := by
            simp [decodeRecord, hAB, hsplit]
          rw [List.filterMap_cons, hdec]
          exact ih htail
        · simp only [hsplit]
          have hdec : decodeRecord ips l = none := by
            simp [decodeRecord, hAB, hsplit]
          rw [List.filterMap_cons, hdec]
          exact ih htail
        · simp only [hsplit]
          have hdec : decodeRecord ips l = none := by
            simp [decodeRecord, hAB, hsplit]
          rw [List.filterMap_cons, hdec]
          exact ih htail
        · simp only [hsplit]
          have hdec : decodeRecord ips l = none := by
            simp [decodeRecord, hAB, hsplit]
          rw [List.filterMap_cons, hdec]
          exact ih htail
        · simp only [hsplit]
          by_cases hig : should_ignore_url ips (normalizeUrl u) = true
          · rw [if_pos hig]
            have hdec : decodeRecord ips l = none := by
              simp [decodeRecord, hAB, hsplit, hig]
            rw [List.filterMap_cons, hdec]
            exact ih htail
          · have hig' : should_ignore_url ips (normalizeUrl u) = false :=
              Bool.eq_false_iff.mpr hig
            rw [if_neg hig]
            have hbadl' := hbadl
            simp only [badCounterLine, hAB, Bool.false_eq_true, if_false,
              hsplit, hig'] at hbadl'
            rw [Bool.not_eq_false'] at hbadl'
            obtain ⟨⟨⟨hp, hb⟩, hen⟩, hex⟩ := by
              simpa [Bool.and_eq_true] using hbadl'
            obtain ⟨pv, hpv⟩ := Option.isSome_iff_exists.mp hp
            obtain ⟨bv, hbv⟩ := Option.isSome_iff_exists.mp hb
            obtain ⟨env_, henv⟩ := Option.isSome_iff_exists.mp hen
            obtain ⟨exv, hexv⟩ := Option.isSome_iff_exists.mp hex
            simp only [hpv, hbv, henv, hexv]
            simp only [ih htail]
            have hdec : decodeRecord ips l =
                some ⟨normalizeUrl u, pv, bv, env_, exv⟩ := by
              simp [decodeRecord, hAB, hsplit, hig', hpv, hbv, henv, hexv]
            rw [List.filterMap_cons, hdec]
        · simp only [hsplit]
          have hdec : decodeRecord ips l = none := by
            simp [decodeRecord, hAB, hsplit]
          rw [List.filterMap_cons, hdec]
          exact ih htail
      · rw [if_neg hc]
        have h0 : (!pyStartswith "#" (pyStrip l) &&
            !pyStartswith "BEGIN_SIDER" (pyStrip l)) = false :=
          Bool.eq_false_iff.mpr hc
        have hOr : (pyStartswith "#" (pyStrip l) ||
            pyStartswith "BEGIN_SIDER" (pyStrip l)) = true := by
          rcases hA : pyStartswith "#" (pyStrip l) with _ | _ <;>
            rcases hB : pyStartswith "BEGIN_SIDER" (pyStrip l) with _ | _ <;>
            simp [hA, hB] at h0 ⊢
        have hdec : decodeRecord ips l = none := by
          simp [decodeRecord, hOr]
        rw [List.filterMap_cons, hdec]
        exact ih htail

/-! ## Claim theorems -/

/-- C3: `update_server_stats` is an additive upsert on the key
`(website_url_id, server_id, year, month)`: with no existing row it
inserts `(pages, entry, exit)` as `(hits, entry_count, exit_count)`; with
an existing row it adds them; and the record's `bandwidth` field is never
written (the result does not depend on it). -/
theorem update_server_stats_spec (stats : List StatsRow)
    (wuid sid : Nat) (y m : Int) (d : UrlData) :
    (stats.find? (statsKey wuid sid y m) = none →
      update_server_stats stats wuid sid y m d =
        stats ++ [⟨wuid, sid, y, m, d.pages, d.entry, d.exit_⟩]) ∧
    (∀ r, stats.find? (statsKey wuid sid y m) = some r →
      (update_server_stats stats wuid sid y m d).find?
          (statsKey wuid sid y m) =
        some { r with
                hits := r.hits + d.pages,
                entry_count := r.entry_count + d.entry,
                exit_count := r.exit_count + d.exit_ }) ∧
    (∀ d' : UrlData, d.pages = d'.pages → d.entry = d'.entry →
      d.exit_ = d'.exit_ →
      update_server_stats stats wuid sid y m d =
        update_server_stats stats wuid sid y m d') := by
  refine ⟨?_, ?_, ?_⟩
  · intro h
    have hany : stats.any (statsKey wuid sid y m) = false := by
      rw [List.any_eq_false]
      intro a ha
      exact (List.find?_eq_none.mp h) a ha
    simp only [update_server_stats, hany, Bool.false_eq_true, if_false]
  · intro r hr
    have hany : stats.any (statsKey wuid sid y m) = true :=
      List.any_eq_true.mpr
        ⟨r, List.mem_of_find?_eq_some hr, List.find?_some hr⟩
    simp only [update_server_stats, hany, if_true]
    rw [find?_map_ite (statsKey wuid sid y m)
      (fun r => { r with
                    hits := r.hits + d.pages,
                    entry_count := r.entry_count + d.entry,
                    exit_count := r.exit_count + d.exit_ }) stats
      (fun a ha => ha)]
    rw [hr]
    rfl
  · intro d' h1 h2 h3
    simp only [update_server_stats, h1, h2, h3]

/-- Witness for C3: insertion on a missing key, then an additive merge on
the now-existing key. -/
theorem update_server_stats_spec_witness :
    update_server_stats [] 1 2 (2024 : Int) (3 : Int) ⟨"u", 5, 9, 1, 0⟩ =
      [⟨1, 2, 2024, 3, 5, 1, 0⟩] ∧
    (update_server_stats [⟨1, 2, 2024, 3, 5, 1, 0⟩] 1 2 (2024 : Int)
        (3 : Int) ⟨"u", 2, 7, 1, 1⟩).find? (statsKey 1 2 2024 3) =
      some ⟨1, 2, 2024, 3, 7, 2, 1⟩ := by
  constructor
  · exact (update_server_stats_spec [] 1 2 2024 3 ⟨"u", 5, 9, 1, 0⟩).1 rfl
  · have h := (update_server_stats_spec [⟨1, 2, 2024, 3, 5, 1, 0⟩] 1 2 2024
      3 ⟨"u", 2, 7, 1, 1⟩).2.1 ⟨1, 2, 2024, 3, 5, 1, 0⟩ (by decide)
    rw [h]
    decide

/-- C6: the idempotency gate: `force` always reprocesses; otherwise the
gate fires iff a stored fingerprint for `(filename, server_id)` carries
exactly this modification time; `process_file` consults it with the
microsecond part of the file's modification time discarded, and the
truncation identifies any two times within the same second. -/
theorem file_state_tracker_spec :
    (∀ (tracking : List FileTrackingRow) (fn : String) (sid lm : Nat),
      has_file_been_processed tracking fn sid lm true = false) ∧
    (∀ (tracking : List FileTrackingRow) (fn : String) (sid lm : Nat),
      (∀ r₁ ∈ tracking, ∀ r₂ ∈ tracking, trackKey fn sid r₁ = true →
        trackKey fn sid r₂ = true → r₁ = r₂) →
      (has_file_been_processed tracking fn sid lm false = true ↔
        ∃ r ∈ tracking, r.filename = fn ∧ r.server_id = sid ∧
          r.last_modified = lm)) ∧
    (∀ (st : DBState) (ips : List String) (f : AwFile) (sid now : Nat),
      has_file_been_processed st.file_tracking f.name sid
        (truncMicros f.mtimeMicros) false = true →
      process_file st ips f sid false now = .ok st) ∧
    (∀ t t' : Nat, t / 1000000 = t' / 1000000 →
      truncMicros t = truncMicros t') := by
  refine ⟨?_, ?_, ?_, ?_⟩
  · intro tracking fn sid lm
    simp [has_file_been_processed]
  · intro T fn sid lm hu
    constructor
    · intro h
      simp only [has_file_been_processed, Bool.false_eq_true, if_false] at h
      rcases hfind : T.find? (trackKey fn sid) with _ | r
      · rw [hfind] at h
        simp at h
      · rw [hfind] at h
        obtain ⟨h1, h2⟩ := trackKey_fields (List.find?_some hfind)
        exact ⟨r, List.mem_of_find?_eq_some hfind, h1, h2,
          beq_iff_eq.mp h⟩
    · rintro ⟨r, hr, h1, h2, h3⟩
      have hkey : trackKey fn sid r = true := by
        simp [trackKey, h1, h2]
      rcases hfind : T.find? (trackKey fn sid) with _ | r0
      · rw [List.find?_eq_none] at hfind
        exact absurd hkey (hfind r hr)
      · have hr0 : r = r0 :=
          hu r hr r0 (List.mem_of_find?_eq_some hfind) hkey
            (List.find?_some hfind)
        subst hr0
        simp [has_file_been_processed, hfind, h3]
  · intro st ips f sid now h
    simp [process_file, h]
  · intro t t' h
    simp [truncMicros, h]

/-- Witness for C6: the gate fires on a matching fingerprint, the
matching-fingerprint file is skipped, and two times within one second
truncate alike. -/
theorem file_state_tracker_spec_witness :
    has_file_been_processed [⟨"f.txt", 1, 1000000, 5⟩] "f.txt" 1 1000000
      false = true ∧
    process_file demoProcessed [] demoFile 1 false 99 = .ok demoProcessed ∧
    truncMicros 1700000000123456 = truncMicros 1700000000999999 := by
  refine ⟨?_, ?_, ?_⟩
  · exact (file_state_tracker_spec.2.1 [⟨"f.txt", 1, 1000000, 5⟩] "f.txt" 1
      1000000 (by decide)).mpr
      ⟨⟨"f.txt", 1, 1000000, 5⟩, by simp, rfl, rfl, rfl⟩
  · exact file_state_tracker_spec.2.2.1 demoProcessed [] demoFile 1 99
      (by decide)
  · exact file_state_tracker_spec.2.2.2 1700000000123456 1700000000999999
      (by decide)

/-- C1: processing an unchanged file a second time without force is a
no-op: if the first `process_file` run succeeded (returning `st'`), a
second run on `st'` with the same file returns `st'` unchanged — no
merges and no fingerprint update happen beyond the first run, so all
aggregate counters are those of the single run. -/
theorem process_file_idempotent (st st' : DBState) (ips : List String)
    (f : AwFile) (sid now now' : Nat)
    (h : process_file st ips f sid false now = .ok st') :
    process_file st' ips f sid false now' = .ok st' := by
  unfold process_file at h
  by_cases hskip : has_file_been_processed st.file_tracking f.name sid
      (truncMicros f.mtimeMicros) false = true
  · rw [if_pos hskip] at h
    cases h
    unfold process_file
    rw [if_pos hskip]
  · rw [if_neg hskip] at h
    split at h
    · cases h
    · rename_i ps heq
      split at h
      · rename_i hpos
        cases h
        simp [process_file, hskip, heq, hpos]
      · rename_i off hpos
        split at h
        · cases h
        · rename_i sd hsd
          split at h
          · cases h
          · rename_i wid hwid
            split at h
            · rename_i y mo hy hmo
              cases h
              have hskip2 :
                  has_file_been_processed
                    (update_file_tracking
                      (merge_sider_data st wid sid y mo sd).file_tracking
                      f.name sid (truncMicros f.mtimeMicros) now)
                    f.name sid (truncMicros f.mtimeMicros) false = true :=
                has_file_been_processed_update _ _ _ _ _
              unfold process_file
              rw [if_pos hskip2]
            · cases h

/-- Witness for C1: a concrete successful first run, then the second run
returning the same state. -/
theorem process_file_idempotent_witness :
    process_file demoState [] demoFile 1 false 42 = .ok demoProcessed ∧
    process_file demoProcessed [] demoFile 1 false 99 =
      .ok demoProcessed := by
  have h1 : process_file demoState [] demoFile 1 false 42 =
      .ok demoProcessed := by rfl
  exact ⟨h1,
    process_file_idempotent demoState demoProcessed [] demoFile 1 42 99 h1⟩

/-- C5: `should_ignore_url` is true exactly on the empty URL, the bare
slash and URLs with a configured ignore prefix; every record the decoder
returns has a non-ignored URL; and a `process_file` run only ever adds
`website_url` rows whose URL is not ignored. -/
theorem ignore_filtering_spec :
    (∀ (ips : List String) (url : String),
      should_ignore_url ips url = true ↔
        (url = "" ∨ url = "/" ∨ ∃ p ∈ ips, pyStartswith p url = true)) ∧
    (∀ (ips : List String) (file : List String) (off : Int)
        (out : List UrlData) (d : UrlData),
      parse_pos_sider ips file off = .ok out → d ∈ out →
      should_ignore_url ips d.url = false) ∧
    (∀ (st st' : DBState) (ips : List String) (f : AwFile)
        (sid now : Nat) (force : Bool),
      process_file st ips f sid force now = .ok st' →
      ∀ w ∈ st'.website_url,
        w ∈ st.website_url ∨ should_ignore_url ips w.url = false) := by
  refine ⟨?_, ?_, ?_⟩
  · intro ips url
    simp [should_ignore_url, List.any_eq_true, or_assoc]
  · intro ips file off out d h hd
    exact parseSiderLines_ok_not_ignored ips _ out h d hd
  · intro st st' ips f sid now force h w hw
    unfold process_file at h
    split at h
    · cases h; exact Or.inl hw
    · split at h
      · cases h
      · rename_i ps heq
        split at h
        · cases h; exact Or.inl hw
        · rename_i off hpos
          split at h
          · cases h
          · rename_i sd hsd
            split at h
            · cases h
            · rename_i wid hwid
              split at h
              · rename_i y mo hy hmo
                cases h
                rcases merge_sider_data_urls sd st wid sid y mo w hw with
                  hmem | ⟨d, hd, hurl⟩
                · exact Or.inl hmem
                · refine Or.inr ?_
                  rw [hurl]
                  exact parseSiderLines_ok_not_ignored ips _ sd hsd d hd
              · cases h

/-- Witness for C5: a configured prefix fires the filter; the decoded
demo record's URL is not ignored; the URL rows a concrete run adds are
not ignored. -/
theorem ignore_filtering_spec_witness :
    should_ignore_url ["x"] "xyz" = true ∧
    should_ignore_url [] "Some Page" = false ∧
    ((⟨1, 1, "Some Page"⟩ : WebsiteUrlRow) ∈ demoState.website_url ∨
      should_ignore_url [] "Some Page" = false) := by
  refine ⟨?_, ?_, ?_⟩
  · exact (ignore_filtering_spec.1 ["x"] "xyz").mpr
      (Or.inr (Or.inr ⟨"x", by simp, by decide⟩))
  · exact ignore_filtering_spec.2.1 [] demoFile.lines 3
      [⟨"Some Page", 5, 100, 2, 3⟩, ⟨"Other", 7, 50, 1, 0⟩]
      ⟨"Some Page", 5, 100, 2, 3⟩ (by rfl) (by decide)
  · exact ignore_filtering_spec.2.2 demoState demoProcessed [] demoFile 1
      42 false (by rfl) ⟨1, 1, "Some Page"⟩ (by decide)

/-- C2 (amended): provided every line of the section region whose shape
reaches the counter conversion has parsable counters, `parse_pos_sider`
returns, in file order, exactly one record per line before the END_SIDER
marker that is neither a comment nor the BEGIN_SIDER marker, splits into
exactly five fields, and has a non-ignored normalized URL — and no record
or error for any other line (`decodeRecord` captures exactly this
per-line behaviour, including the strip-`/`, strip-`wiki/`,
percent-decode normalization, under which `wiki/Some%20Page` stores as
`Some Page`).  Without the proviso, a bad counter aborts the parse with
an error (see the counterexample). -/
theorem parse_pos_sider_decode_spec (ips : List String)
    (file : List String) (off : Int)
    (h : ∀ l ∈ (file.drop off.toNat).takeWhile (fun x => !isEndSider x),
      badCounterLine ips l = false) :
    parse_pos_sider ips file off =
      .ok (((file.drop off.toNat).takeWhile
        (fun x => !isEndSider x)).filterMap (decodeRecord ips)) ∧
    normalizeUrl "wiki/Some%20Page" = "Some Page" :=
  ⟨parseSiderLines_eq_filterMap ips _ h, by rfl⟩

/-- C2 counterexample: `/Page x 1 2 3` sits before END_SIDER, is not a
comment or marker, has exactly five fields and a non-ignored URL, so the
original claim promises exactly one record for it and no error — but the
parse returns an error (the second counter fails `int`) and no records at
all. -/
theorem parse_pos_sider_claim_counterexample :
    parse_pos_sider [] ["/Page x 1 2 3", "END_SIDER"] 0 =
      .error "invalid literal for int" := by rfl

/-- Witness for C2: a concrete section parse hitting the comment-skip,
five-field and normalization paths. -/
theorem parse_pos_sider_decode_spec_witness :
    parse_pos_sider [] ["BEGIN_SIDER", "/wiki/Some%20Page 5 100 2 3",
      "one two", "END_SIDER", "junk"] 0 =
      .ok [⟨"Some Page", 5, 100, 2, 3⟩] := by
  have h := (parse_pos_sider_decode_spec []
    ["BEGIN_SIDER", "/wiki/Some%20Page 5 100 2 3", "one two", "END_SIDER",
      "junk"] 0 (by decide)).1
  rw [h]
  rfl

/-- C4 (amended): a file whose offset index lacks POS_SIDER is abandoned
with no stats merged and no fingerprint recorded, and the run continues
with the next file; but a counter-parse failure (or any other uncaught
error) in one file's processing aborts the entire run — later files are
not processed. -/
theorem structural_error_policy :
    (∀ (st : DBState) (ips : List String) (f : AwFile) (sid : Nat)
        (force : Bool) (now : Nat) (ps : List (String × Int)),
      has_file_been_processed st.file_tracking f.name sid
        (truncMicros f.mtimeMicros) force = false →
      parse_begin_map f.lines = .ok ps →
      ps.lookup "POS_SIDER" = none →
      process_file st ips f sid force now = .ok st) ∧
    (∀ (st st' : DBState) (ips : List String) (f : AwFile) (sid : Nat)
        (force : Bool) (now : Nat) (rest : List (AwFile × Nat)),
      process_file st ips f sid force now = .ok st' →
      process_files st ips ((f, sid) :: rest) force now =
        process_files st' ips rest force now) ∧
    (∀ (st : DBState) (ips : List String) (f : AwFile) (sid : Nat)
        (force : Bool) (now : Nat) (e : String)
        (rest : List (AwFile × Nat)),
      process_file st ips f sid force now = .error e →
      process_files st ips ((f, sid) :: rest) force now = .error e) := by
  refine ⟨?_, ?_, ?_⟩
  · intro st ips f sid force now ps h1 h2 h3
    simp [process_file, h1, h2, h3]
  · intro st st' ips f sid force now rest h
    simp [process_files, h]
  · intro st ips f sid force now e rest h
    simp [process_files, h]

/-- C4 counterexample: with a bad-counter file first in the run, the whole
run aborts with the `int` error — the well-formed second file is never
processed, although on its own it processes fine.  This contradicts the
claim that the error lets the run continue with the next file. -/
theorem run_abort_counterexample :
    process_files demoState [] [(badCounterFile, 1), (demoFile, 1)] false
      42 = .error "invalid literal for int" ∧
    process_files demoState [] [(demoFile, 1)] false 42 =
      .ok demoProcessed := ⟨by rfl, by rfl⟩

/-- Witness for C4: a missing-POS_SIDER file is a no-op and the run
continues into the next file; an erroring file aborts the run. -/
theorem structural_error_policy_witness :
    process_file demoState [] noSiderFile 1 false 42 = .ok demoState ∧
    process_files demoState [] [(noSiderFile, 1), (demoFile, 1)] false 42 =
      process_files demoState [] [(demoFile, 1)] false 42 ∧
    process_files demoState [] [(badCounterFile, 1)] false 42 =
      .error "invalid literal for int" := by
  have h1 := structural_error_policy.1 demoState [] noSiderFile 1 false 42
    [("POS_GENERAL", 7)] (by rfl) (by rfl) (by rfl)
  refine ⟨h1, ?_, ?_⟩
  · exact structural_error_policy.2.1 demoState demoState [] noSiderFile 1
      false 42 [(demoFile, 1)] h1
  · exact structural_error_policy.2.2 demoState [] badCounterFile 1 false
      42 "invalid literal for int" [] (by rfl)

/-- C7: the forced-reset scopes that execute (by website, by single file,
global) leave no in-scope `website_url` row without a referencing
`website_url_stats` row; the by-server scope, however, never performs the
claimed deletion-plus-sweep: it raises `NameError` from the undefined
`get_server_id_from_name` before its `DELETE` statements run, for every
database state and server name. -/
theorem forced_reset_orphan_sweep (st : DBState) (wid : Nat)
    (y m : Int) (server_name : String) :
    orphanInScope (force_reset_website st wid)
      (fun w => w.website_id == wid) = false ∧
    orphanInScope (force_reset_file st wid y m)
      (fun w => w.website_id == wid) = false ∧
    (force_reset_all st).website_url = [] ∧
    force_reset_server st server_name =
      .error "name get_server_id_from_name is not defined" := by
  refine ⟨?_, ?_, rfl, rfl⟩
  · rw [orphanInScope, List.any_eq_false]
    intro w hw hc
    have hw2 := (List.mem_filter.mp hw).2
    rw [Bool.not_eq_true'] at hw2
    exact absurd (hw2.symm.trans hc) (by decide)
  · rw [orphanInScope, List.any_eq_false]
    intro w hw hc
    have hw2 := (List.mem_filter.mp hw).2
    rw [Bool.not_eq_true'] at hw2
    exact absurd (hw2.symm.trans hc) (by decide)

/-- C8: for every conforming filename
`awstats` + 2-digit month + 4-digit year + `.` + website name + `.txt`,
the normal-ingestion derivation (positional slicing for month and year,
dot-split for the website) and the forced single-file-deletion derivation
(extension strip, regex match, dot-split) produce the same
`(website, year, month)` triple, and that triple is defined. -/
theorem filename_parsers_agree (m1 m2 y1 y2 y3 y4 : Char) (w : List Char)
    (hm1 : m1.isDigit = true) (hm2 : m2.isDigit = true)
    (hy1 : y1.isDigit = true) (hy2 : y2.isDigit = true)
    (hy3 : y3.isDigit = true) (hy4 : y4.isDigit = true) :
    fileTripleNormal (conformingName m1 m2 y1 y2 y3 y4 w) =
      fileTripleForced (conformingName m1 m2 y1 y2 y3 y4 w) ∧
    (fileTripleNormal (conformingName m1 m2 y1 y2 y3 y4 w)).isSome =
      true := by
  have hYs : (pyIntChars [y1, y2, y3, y4]).isSome = true := by
    refine pyIntChars_digits_isSome y1 [y2, y3, y4] ?_
    intro x hx
    simp only [List.mem_cons, List.not_mem_nil, or_false] at hx
    rcases hx with rfl | rfl | rfl | rfl <;> assumption
  have hMs : (pyIntChars [m1, m2]).isSome = true := by
    refine pyIntChars_digits_isSome m1 [m2] ?_
    intro x hx
    simp only [List.mem_cons, List.not_mem_nil, or_false] at hx
    rcases hx with rfl | rfl <;> assumption
  obtain ⟨Y, hY⟩ := Option.isSome_iff_exists.mp hYs
  obtain ⟨M, hM⟩ := Option.isSome_iff_exists.mp hMs
  have hnd : ∀ c ∈ ['a', 'w', 's', 't', 'a', 't', 's', m1, m2,
      y1, y2, y3, y4], c ≠ '.' := by
    intro c hc
    simp only [List.mem_cons, List.not_mem_nil, or_false] at hc
    rcases hc with rfl | rfl | rfl | rfl | rfl | rfl | rfl | rfl | rfl |
      rfl | rfl | rfl | rfl
    · decide
    · decide
    · decide
    · decide
    · decide
    · decide
    · decide
    · exact digit_ne_dot _ hm1
    · exact digit_ne_dot _ hm2
    · exact digit_ne_dot _ hy1
    · exact digit_ne_dot _ hy2
    · exact digit_ne_dot _ hy3
    · exact digit_ne_dot _ hy4
  have hsd : splitDots (conformingName m1 m2 y1 y2 y3 y4 w) =
      ['a', 'w', 's', 't', 'a', 't', 's', m1, m2, y1, y2, y3, y4] ::
        (splitDots w ++ [['t', 'x', 't']]) := by
    have h1 := splitDots_append_dot
      ['a', 'w', 's', 't', 'a', 't', 's', m1, m2, y1, y2, y3, y4]
      (w ++ '.' :: 't' :: 'x' :: 't' :: [])
    have h2 := splitDots_append_dot w ['t', 'x', 't']
    rw [splitDots_noDot _ hnd] at h1
    rw [splitDots_noDot ['t', 'x', 't'] (by decide)] at h2
    exact h1.trans (by rw [h2, List.singleton_append])
  have hweb : websiteFromFilename (conformingName m1 m2 y1 y2 y3 y4 w) =
      w := by
    rw [websiteFromFilename, hsd]
    show joinDots ((splitDots w ++ [['t', 'x', 't']]).dropLast) = w
    rw [List.dropLast_concat, joinDots_splitDots]
  have hnorm : fileTripleNormal (conformingName m1 m2 y1 y2 y3 y4 w) =
      some (w, Y, M) := by
    have e1 : pyIntChars
        (pySliceL (conformingName m1 m2 y1 y2 y3 y4 w) 9 13) = some Y := hY
    have e2 : pyIntChars
        (pySliceL (conformingName m1 m2 y1 y2 y3 y4 w) 7 9) = some M := hM
    simp only [fileTripleNormal, e1, e2, hweb]
  have hfneq : conformingName m1 m2 y1 y2 y3 y4 w =
      (('a' :: 'w' :: 's' :: 't' :: 'a' :: 't' :: 's' :: m1 :: m2 ::
        y1 :: y2 :: y3 :: y4 :: '.' :: w) ++
        ('.' :: 't' :: 'x' :: 't' :: [])) := by
    simp [conformingName]
  have htake : (conformingName m1 m2 y1 y2 y3 y4 w).take
      ((conformingName m1 m2 y1 y2 y3 y4 w).length - 4) =
      'a' :: 'w' :: 's' :: 't' :: 'a' :: 't' :: 's' :: m1 :: m2 ::
        y1 :: y2 :: y3 :: y4 :: '.' :: w := by
    rw [hfneq]
    refine List.take_left' ?_
    simp only [List.length_append, List.length_cons, List.length_nil]
    omega
  have hparts : splitDots
      ('a' :: 'w' :: 's' :: 't' :: 'a' :: 't' :: 's' :: m1 :: m2 ::
        y1 :: y2 :: y3 :: y4 :: '.' :: w) =
      ['a', 'w', 's', 't', 'a', 't', 's', m1, m2, y1, y2, y3, y4] ::
        splitDots w := by
    have h1 := splitDots_append_dot
      ['a', 'w', 's', 't', 'a', 't', 's', m1, m2, y1, y2, y3, y4] w
    rw [splitDots_noDot _ hnd] at h1
    exact h1
  have hre : regexAwstats
      ('a' :: 'w' :: 's' :: 't' :: 'a' :: 't' :: 's' :: m1 :: m2 ::
        y1 :: y2 :: y3 :: y4 :: '.' :: w) =
      some ([m1, m2], [y1, y2, y3, y4]) := by
    have e : regexAwstats
        ('a' :: 'w' :: 's' :: 't' :: 'a' :: 't' :: 's' :: m1 :: m2 ::
          y1 :: y2 :: y3 :: y4 :: '.' :: w) =
        if m1.isDigit && m2.isDigit && y1.isDigit && y2.isDigit &&
            y3.isDigit && y4.isDigit then
          some ([m1, m2], [y1, y2, y3, y4])
        else none := rfl
    rw [e, hm1, hm2, hy1, hy2, hy3, hy4]
    rfl
  have hlen2 : ¬((['a', 'w', 's', 't', 'a', 't', 's', m1, m2, y1, y2, y3,
      y4] :: splitDots w).length < 2) := by
    rcases h : splitDots w with _ | ⟨x, xs⟩
    · exact absurd h (splitDots_ne_nil w)
    · simp
  have hforced : fileTripleForced (conformingName m1 m2 y1 y2 y3 y4 w) =
      some (w, Y, M) := by
    simp only [fileTripleForced]
    rw [htake, hparts, if_neg hlen2]
    simp only [hre, hY, hM]
    show some (joinDots (splitDots w), Y, M) = some (w, Y, M)
    rw [joinDots_splitDots]
  rw [hnorm, hforced]
  exact ⟨rfl, rfl⟩

/-- Witness for C8: the two derivations agree on
`awstats032024.example.com.txt`. -/
theorem filename_parsers_agree_witness :
    fileTripleNormal
        (conformingName '0' '3' '2' '0' '2' '4' "example.com".data) =
      fileTripleForced
        (conformingName '0' '3' '2' '0' '2' '4' "example.com".data) ∧
    (fileTripleNormal
        (conformingName '0' '3' '2' '0' '2' '4'
          "example.com".data)).isSome = true :=
  filename_parsers_agree '0' '3' '2' '0' '2' '4' "example.com".data
    (by decide) (by decide) (by decide) (by decide) (by decide) (by decide)

/-- C9: inside the tolerant BEGIN_MAP scan, a two-token line whose first
token starts with `POS_` but whose second token is not a decimal integer
raises the `int` conversion error instead of being skipped, while a
two-token line without the `POS_` prefix is skipped silently. -/
theorem parse_begin_map_int_error_reachable :
    parse_begin_map
      ["BEGIN_MAP", "POS_SIDER 2000", "POS_FOO abc", "END_MAP"] =
      .error "invalid literal for int" ∧
    parse_begin_map ["BEGIN_MAP", "POS_SIDER 2000", "FOO abc", "END_MAP"] =
      .ok [("POS_SIDER", 2000)] := by
  constructor <;> rfl

/-- C10: no forced-reset scope touches the `file_tracking` or `websites`
tables: the website, single-file and global scopes modify only
`website_url_stats` and `website_url`, and the by-server scope raises
`NameError` before performing any deletion at all — so stored
fingerprints survive every forced reset. -/
theorem forced_reset_frame (st : DBState) (wid : Nat) (y m : Int)
    (server_name : String) :
    (force_reset_website st wid).file_tracking = st.file_tracking ∧
    (force_reset_website st wid).websites = st.websites ∧
    (force_reset_file st wid y m).file_tracking = st.file_tracking ∧
    (force_reset_file st wid y m).websites = st.websites ∧
    (force_reset_all st).file_tracking = st.file_tracking ∧
    (force_reset_all st).websites = st.websites ∧
    force_reset_server st server_name =
      .error "name get_server_id_from_name is not defined" :=
  ⟨rfl, rfl, rfl, rfl, rfl, rfl, rfl⟩

end AWStatsUrls
